import Mathlib

/-!
A verification development for the `cbuild` build-driver core
(`cbuild/src/file.rs`, `cbuild/src/graph.rs`).

Modelling conventions:
* A path is a list of components (`Comp`), a component being either the
  Unix root (`Comp.root`, the leading `/`) or a normal name.  `PathBuf::join`
  follows Rust semantics: joining an absolute path replaces the base.
* Strings are lists of characters (`Str`), so command-line tokens are
  plain lists and `format!("{}{}", a, b)` is `a ++ b`.
* Last-modified timestamps are natural numbers; the filesystem metadata
  oracle is a function `Path → Option Nat` (`none` = the file does not
  exist / its metadata cannot be read).
* Spawning a process is an oracle `Cmd → ProcResult`; each modelled
  operation additionally returns the list of commands it spawned, so
  "no process was spawned" is an inspectable fact (an empty trace).
* A Rust `panic!`/`unimplemented!` is modelled as `Option.none` (a fatal,
  non-recoverable abort), while a recoverable `Err` is `Except.error`.
* Tokio's `JoinSet::join_all` returns results in completion order; the
  build model therefore takes the completed result list as an explicit
  argument, constrained in theorems to be a permutation of the per-file
  results in spawn order.
-/

namespace Cbuild

abbrev Str := List Char

inductive Comp where
| root : Comp
| name : Str → Comp
deriving DecidableEq

abbrev Path := List Comp

def nm (s : String) : Comp := Comp.name s.data

/-- Rust `Path::file_stem` on a file name (Rust semantics): the portion before
the last `.`; a name whose only `.` is leading has no extension, so it is
its own stem. -/
def fileStem (n : Str) : Str :=
  match (n.reverse.span (fun c => c ≠ '.')).2 with
  | [] => n
  | _ :: stemRev => if stemRev = [] then n else stemRev.reverse

/-- Rust `Path::with_extension` applied to a single file name: stem, dot,
new extension (just the stem when the new extension is empty). -/
def withExtName (n : Str) (e : Str) : Str :=
  if e = [] then fileStem n else fileStem n ++ '.' :: e

def Path.isAbsolute (p : Path) : Bool := p.head? = some Comp.root

/-- Rust `PathBuf::join` / `push`: an absolute argument replaces the base. -/
def Path.join (p q : Path) : Path := if q.isAbsolute then q else p ++ q

/-- Rust `Path::with_extension`: rewrites the file name (the last component,
when it is a normal name); otherwise the path is returned unchanged. -/
def Path.withExtension (p : Path) (e : Str) : Path :=
  match p.getLast? with
  | some (Comp.name n) => p.dropLast ++ [Comp.name (withExtName n e)]
  | _ => p

/-- Rust `Path::strip_prefix`, componentwise; `none` models the `Err` case. -/
def stripPre (p pre : Path) : Option Path :=
  if pre.isPrefixOf p then some (p.drop pre.length) else none

def Comp.render : Comp → Str
| Comp.root => []
| Comp.name n => n

/-- Rust `Path::display().to_string()` for a component list (Unix style). -/
def Path.render : Path → Str
| [] => []
| [Comp.root] => ['/']
| [Comp.name n] => n
| Comp.root :: rest => '/' :: Path.render rest
| Comp.name n :: rest => n ++ '/' :: Path.render rest

inductive Os where
| Window
| Linux
| MacOs
| UnixLike
deriving DecidableEq

inductive OptimizationLevel where
| Debug
| Release
| O0
| O1
| O2
| O3
| OSize
deriving DecidableEq

inductive BinaryType where
| Executable
| DynLib
| StaticLib
deriving DecidableEq

inductive ToolChain where
| Gcc
| Clang
| Msvc
| Zig
| Custom (compiler : Str) (linker : Str)
deriving DecidableEq

def ToolChain.obj_file_ext : ToolChain → Str
| .Gcc | .Clang | .Zig | .Custom _ _ => ("o").data
| .Msvc => ("obj").data

def ToolChain.compiler_input_flag : ToolChain → Str
| .Gcc | .Clang | .Zig | .Custom _ _ => ("-c").data
| .Msvc => ("/c").data

def ToolChain.compiler_output_flag : ToolChain → Str
| .Gcc | .Clang | .Zig | .Custom _ _ => ("-o").data
| .Msvc => ("/Fo").data

def ToolChain.compiler_include_flag : ToolChain → Str
| .Gcc | .Clang | .Zig | .Custom _ _ => ("-I").data
| .Msvc => ("/I").data

def ToolChain.compiler_warning_flag : ToolChain → Str
| .Gcc | .Clang | .Zig | .Custom _ _ => ("-W").data
| .Msvc => []

def ToolChain.compiler_no_warning_flag : ToolChain → Str
| .Gcc | .Clang | .Zig | .Custom _ _ => ("-Wno-").data
| .Msvc => []

def ToolChain.compiler : ToolChain → Str
| .Gcc => ("gcc").data
| .Clang => ("clang").data
| .Msvc => ("cl.exe").data
| .Zig => ("zig").data
| .Custom c _ => c

/-- Rust `ToolChain::linker`; `none` models the `unimplemented!` panic arm
(a fatal configuration error, not a recoverable `Err`). -/
def ToolChain.linker : ToolChain → BinaryType → Option Str
| .Gcc, .Executable => some (("gcc").data)
| .Clang, .Executable => some (("clang").data)
| .Msvc, .Executable => some (("link.exe").data)
| .Msvc, .StaticLib => some (("lib.exe").data)
| .Zig, .Executable => some (("zig").data)
| .Custom _ l, _ => some l
| _, _ => none

def ToolChain.linker_output_flag : ToolChain → Str
| .Gcc | .Clang | .Zig | .Custom _ _ => ("-o").data
| .Msvc => ("/OUT:").data

/-- A `none` models the MSVC `unimplemented!` panic. -/
def ToolChain.linker_link_lib : ToolChain → Option Str
| .Gcc | .Clang | .Zig | .Custom _ _ => some (("-l").data)
| .Msvc => none

/-- A `none` models the MSVC `unimplemented!` panic. -/
def ToolChain.linker_link_dir_flag : ToolChain → Option Str
| .Gcc | .Clang | .Zig | .Custom _ _ => some (("-L").data)
| .Msvc => none

inductive WarningFlag where
| Error
| Pedantic
| Extra
| All
| DeprecatedDeclarations
deriving DecidableEq

def WarningFlag.to_string : WarningFlag → ToolChain → Str
| _, .Msvc => []
| .Error, _ => ("error").data
| .Pedantic, _ => ("pedantic").data
| .Extra, _ => ("extra").data
| .All, _ => ("all").data
| .DeprecatedDeclarations, _ => ("deprecated-declarations").data

structure CompilerFlags where
  warnings : List WarningFlag
  no_warnings : List WarningFlag
  custom : List Str
deriving DecidableEq

structure Cmd where
  prog : Str
  args : List Str
deriving DecidableEq

inductive ProcResult where
| spawnFail
| exit (success : Bool)
deriving DecidableEq

inductive BuildError where
| metadataErr (p : Path)
| spawnErr (p : Path)
| compileFailed (p : Path)
| linkSpawnErr
| linkFailed (p : Path)
deriving DecidableEq

structure OutputFile where
  path : Path
deriving DecidableEq

instance {ε α : Type} [DecidableEq ε] [DecidableEq α] :
    DecidableEq (Except ε α) := fun a b =>
  match a, b with
  | .error x, .error y =>
    if h : x = y then isTrue (by rw [h]) else isFalse (by simp [h])
  | .ok x, .ok y =>
    if h : x = y then isTrue (by rw [h]) else isFalse (by simp [h])
  | .error _, .ok _ => isFalse (by simp)
  | .ok _, .error _ => isFalse (by simp)

structure InputFile where
  tool_chain : ToolChain
  args : CompilerFlags
  includes : List Path
  path : Path
  output_path : Path
  full_rebuild : Bool
deriving DecidableEq

def InputFile.appendInputFile (f : InputFile) : List Str :=
  [f.tool_chain.compiler_input_flag, f.path.render]

def InputFile.appendOutputFile (f : InputFile) : List Str :=
  if f.tool_chain = ToolChain.Msvc then [("/Fo").data ++ f.output_path.render]
  else [f.tool_chain.compiler_output_flag, f.output_path.render]

def InputFile.appendArgs (f : InputFile) : List Str :=
  (if f.tool_chain = ToolChain.Msvc then [("/nologo").data] else []) ++
  f.args.warnings.map
    (fun w => f.tool_chain.compiler_warning_flag ++ w.to_string f.tool_chain) ++
  f.args.no_warnings.map
    (fun w => f.tool_chain.compiler_no_warning_flag ++ w.to_string f.tool_chain) ++
  f.args.custom

def InputFile.appendIncludes (f : InputFile) : List Str :=
  f.includes.flatMap (fun i => [f.tool_chain.compiler_include_flag, i.render])

/-- The full compiler command line built by `InputFile::compile`. -/
def InputFile.compileCmd (f : InputFile) : Cmd :=
  ⟨f.tool_chain.compiler,
    (if f.tool_chain = ToolChain.Zig then [("cc").data] else []) ++
    f.appendInputFile ++ f.appendOutputFile ++ f.appendArgs ++ f.appendIncludes⟩

/-- Rust `InputFile::should_recompile` over a metadata oracle `mt`. -/
def InputFile.should_recompile (f : InputFile) (mt : Path → Option Nat) :
    Except BuildError Bool :=
  if f.full_rebuild then .ok true
  else
    match mt f.path with
    | none => .error (.metadataErr f.path)
    | some im =>
      match mt f.output_path with
      | none => .ok true
      | some om => .ok (decide (om < im))

/-- Rust `InputFile::compile`: result together with the spawn trace. -/
def InputFile.compileRun (f : InputFile) (mt : Path → Option Nat)
    (run : Cmd → ProcResult) : Except BuildError OutputFile × List Cmd :=
  match f.should_recompile mt with
  | .error e => (.error e, [])
  | .ok false => (.ok ⟨f.output_path⟩, [])
  | .ok true =>
    match run f.compileCmd with
    | .spawnFail => (.error (.spawnErr f.path), [f.compileCmd])
    | .exit false => (.error (.compileFailed f.path), [f.compileCmd])
    | .exit true => (.ok ⟨f.output_path⟩, [f.compileCmd])

/-- A directory subtree as seen by `tokio::fs::read_dir`: each entry is a
plain file or a subdirectory with its own entries. -/
inductive Entry where
| file : Str → Entry
| dir : Str → List Entry → Entry

mutual

/-- Rust `Graph::read_dir` applied to one directory entry seen from `base`:
a file entry contributes its own path, a directory entry is expanded
recursively to all of its non-directory descendants. -/
def entryPaths : Path → Entry → List Path
| base, .file n => [base ++ [Comp.name n]]
| base, .dir n es => entryPathsList (base ++ [Comp.name n]) es

/-- Expansion of a directory listing, entry by entry, in listing order. -/
def entryPathsList : Path → List Entry → List Path
| _, [] => []
| base, e :: es => entryPaths base e ++ entryPathsList base es

end

/-- Here `p` is the path of a non-directory descendant of the directory entry
`e` placed under `base`. -/
inductive LeafIn : Path → Entry → Path → Prop where
| file (base : Path) (n : Str) : LeafIn base (.file n) (base ++ [Comp.name n])
| dir (base : Path) (n : Str) (es : List Entry) (e : Entry) (p : Path) :
    e ∈ es → LeafIn (base ++ [Comp.name n]) e p → LeafIn base (.dir n es) p

/-- Rust `Graph::read_dir` on a whole directory listing. -/
def readDirAll (base : Path) (es : List Entry) : List Path :=
  entryPathsList base es

def CACHE_DIR : Path := [nm (".cargoc")]
def OBJ_DIR : Path := [nm ("obj")]

structure Graph where
  tool_chain : ToolChain
  opt_level : OptimizationLevel
  typ : BinaryType
  files : List Path
  output : Path
  src_dir : Path
  includes : List Path
  lib_paths : List Str
  libs : List Str
  args : CompilerFlags
  excludes : Option (List Path)
  full_rebuild : Bool

/-- Rust `Graph::output`: on Windows the configured output stem gets a
`BinaryType`-dependent extension; elsewhere it is used unchanged. -/
def Graph.outputPath (g : Graph) (host : Os) : Path :=
  if host = Os.Window then
    Path.withExtension g.output
      (match g.typ with
       | .Executable => ("exe").data
       | .DynLib => ("dll").data
       | .StaticLib => ("lib").data)
  else g.output

/-- The file-discovery part of `Graph::build`: top-level entries present
verbatim in the exclusion list are dropped, every remaining directory
(`dt f = some es`, the oracle for `is_dir` plus `read_dir`) is expanded to
its non-directory descendants, every remaining plain file is kept as-is. -/
def Graph.discover (g : Graph) (dt : Path → Option (List Entry)) : List Path :=
  let files := match g.excludes with
    | some ex => g.files.filter (fun f => !(ex.contains f))
    | none => g.files
  files.flatMap (fun f =>
    match dt f with
    | some es => readDirAll f es
    | none => [f])

/-- The object-path derivation inside `Graph::build`:
`strip_prefix(src_dir).unwrap_or(file)`, re-rooted with
`Path::new(CACHE_DIR).join(OBJ_DIR).join(..)` and the extension replaced
by the toolchain's object extension. -/
def Graph.objOutput (g : Graph) (file : Path) : Path :=
  Path.withExtension
    (Path.join (Path.join CACHE_DIR OBJ_DIR) ((stripPre file g.src_dir).getD file))
    g.tool_chain.obj_file_ext

/-- The `InputFile` values created by `Graph::build`. -/
def Graph.inputFiles (g : Graph) (dt : Path → Option (List Entry)) :
    List InputFile :=
  (g.discover dt).map (fun file =>
    ⟨g.tool_chain, g.args, g.includes, file, g.objOutput file, g.full_rebuild⟩)

/-- The loop body of `Graph::should_recompile`: first object whose
timestamp exceeds the artifact's stops with `true`; a metadata failure is
propagated; exhaustion gives `false`. -/
def anyNewer (mt : Path → Option Nat) (om : Nat) :
    List OutputFile → Except BuildError Bool
| [] => .ok false
| f :: rest =>
  match mt f.path with
  | none => .error (.metadataErr f.path)
  | some m => if om < m then .ok true else anyNewer mt om rest

/-- Rust `Graph::should_recompile` (the link staleness decision). -/
def Graph.should_recompile (g : Graph) (mt : Path → Option Nat) (host : Os)
    (files : List OutputFile) : Except BuildError Bool :=
  if g.full_rebuild then .ok true
  else
    match mt (g.outputPath host) with
    | none => .ok true
    | some om => anyNewer mt om files

/-- Rust `Graph::append_out`: MSVC gets the single concatenated `/OUT:` token,
every other toolchain the separate flag and path tokens. -/
def Graph.appendOut (g : Graph) (host : Os) : List Str :=
  if g.tool_chain = ToolChain.Msvc then
    [("/OUT:").data ++ (g.outputPath host).render]
  else [g.tool_chain.linker_output_flag, (g.outputPath host).render]

/-- Rust `Graph::append_libs`; `none` models the MSVC `unimplemented!` panic,
reached only when a library or search path is actually declared. -/
def Graph.appendLibs (g : Graph) : Option (List Str) := do
  let ls ← g.libs.mapM
    (fun l => (g.tool_chain.linker_link_lib).map (fun fl => fl ++ l))
  let ds ← g.lib_paths.mapM
    (fun d => (g.tool_chain.linker_link_dir_flag).map (fun fl => fl ++ d))
  pure (ls ++ ds)

/-- The linker command line built by `Graph::link`; `none` models a panic
in linker resolution or in `append_libs`. -/
def Graph.linkCmd (g : Graph) (host : Os) (files : List OutputFile) :
    Option Cmd := do
  let prog ← g.tool_chain.linker g.typ
  let libArgs ← g.appendLibs
  pure ⟨prog,
    (if g.tool_chain = ToolChain.Zig then [("cc").data] else []) ++
    g.appendOut host ++
    files.map (fun f => f.path.render) ++
    ((if g.tool_chain = ToolChain.Msvc then [("/nologo").data] else []) ++
      g.args.custom) ++
    libArgs⟩

/-- Rust `Graph::link`: staleness check, then spawn; result plus spawn trace.
The outer `none` is a panic while building the command line. -/
def Graph.linkRun (g : Graph) (mt : Path → Option Nat)
    (run : Cmd → ProcResult) (host : Os) (files : List OutputFile) :
    Option (Except BuildError Path × List Cmd) :=
  match g.should_recompile mt host files with
  | .error e => some (.error e, [])
  | .ok false => some (.ok (g.outputPath host), [])
  | .ok true =>
    match g.linkCmd host files with
    | none => none
    | some cmd =>
      match run cmd with
      | .spawnFail => some (.error .linkSpawnErr, [cmd])
      | .exit false => some (.error (.linkFailed g.output), [cmd])
      | .exit true => some (.ok (g.outputPath host), [cmd])

/-- The per-file compile results of `Graph::build`, in spawn order. -/
def Graph.compileResults (g : Graph) (dt : Path → Option (List Entry))
    (mt : Path → Option Nat) (run : Cmd → ProcResult) :
    List (Except BuildError OutputFile) :=
  (g.inputFiles dt).map (fun f => (f.compileRun mt run).1)

/-- Every compile command spawned by `Graph::build` (all jobs are launched
into the `JoinSet` before any result is awaited). -/
def Graph.compileTrace (g : Graph) (dt : Path → Option (List Entry))
    (mt : Path → Option Nat) (run : Cmd → ProcResult) : List Cmd :=
  ((g.inputFiles dt).map (fun f => (f.compileRun mt run).2)).flatten

/-- Models `collect::<Result<Vec<_>>>()`: all values, or the first error. -/
def collectResults : List (Except BuildError OutputFile) →
    Except BuildError (List OutputFile)
| [] => .ok []
| .error e :: _ => .error e
| .ok o :: rest => (collectResults rest).map (o :: ·)

def firstError : List (Except BuildError OutputFile) → Option BuildError
| [] => none
| .error e :: _ => some e
| .ok _ :: rest => firstError rest

def isErr : Except BuildError OutputFile → Bool
| .error _ => true
| .ok _ => false

def okVal : Except BuildError OutputFile → Option OutputFile
| .error _ => none
| .ok o => some o

/-- The tail of `Graph::build` after `join_all`: `completed` is the list
of per-file results in completion order (some permutation of
`compileResults`); a first compile error aborts before the link step. -/
def Graph.buildRun (g : Graph) (dt : Path → Option (List Entry))
    (mt : Path → Option Nat) (run : Cmd → ProcResult) (host : Os)
    (completed : List (Except BuildError OutputFile)) :
    Option (Except BuildError Path × List Cmd) :=
  match collectResults completed with
  | .error e => some (.error e, g.compileTrace dt mt run)
  | .ok outs =>
    match g.linkRun mt run host outs with
    | none => none
    | some (r, lt) => some (r, g.compileTrace dt mt run ++ lt)

/-! Concrete sample configurations used to instantiate the theorems. -/

def flags0 : CompilerFlags := ⟨[], [], []⟩

def pSrcDir : Path := [nm ("src")]

def pAC : Path := [nm ("src"), nm ("a.c")]

def pACpp : Path := [nm ("src"), nm ("a.cpp")]

def pBC : Path := [nm ("src"), nm ("b.c")]

def pAbs : Path := [Comp.root, nm ("x.c")]

def pVend : Path := [nm ("vendor"), nm ("x.c")]

def pSubB : Path := [nm ("src"), nm ("sub"), nm ("b.c")]

def oAC : Path := [nm (".cargoc"), nm ("obj"), nm ("a.o")]

def fA : InputFile := ⟨ToolChain.Gcc, flags0, [], pAC, oAC, false⟩

def fAFull : InputFile := ⟨ToolChain.Gcc, flags0, [], pAC, oAC, true⟩

def msvcW : InputFile := ⟨ToolChain.Msvc, ⟨[WarningFlag.All], [], []⟩, [], pAC, oAC, false⟩

def msvcN : InputFile := ⟨ToolChain.Msvc, flags0, [], pAC, oAC, false⟩

def gccW : InputFile :=
  ⟨ToolChain.Gcc, ⟨[WarningFlag.All], [WarningFlag.Error], []⟩, [], pAC, oAC, false⟩

def mtFresh : Path → Option Nat :=
  fun p => if p = pAC then some 10 else if p = oAC then some 5 else none

def mtStale : Path → Option Nat :=
  fun p => if p = pAC then some 3 else if p = oAC then some 5 else none

def mtNone : Path → Option Nat := fun _ => none

def runOk : Cmd → ProcResult := fun _ => ProcResult.exit true

def gGcc : Graph :=
  ⟨ToolChain.Gcc, OptimizationLevel.Debug, BinaryType.Executable,
    [pAC, pBC], [nm ("a")], pSrcDir, [], [], [], flags0, none, false⟩

def gGccFull : Graph :=
  ⟨ToolChain.Gcc, OptimizationLevel.Debug, BinaryType.Executable,
    [pAC, pBC], [nm ("a")], pSrcDir, [], [], [], flags0, none, true⟩

def gMsvc : Graph :=
  ⟨ToolChain.Msvc, OptimizationLevel.Debug, BinaryType.Executable,
    [pAC], [nm ("a")], pSrcDir, [], [], [], flags0, none, false⟩

def filesB : List OutputFile := [⟨oAC⟩]

def cmdLinkB : Cmd := (gGcc.linkCmd Os.Linux filesB).getD ⟨[], []⟩

/-- Artifact older than the object: the link step must run. -/
def mtLinkStale : Path → Option Nat :=
  fun p => if p = oAC then some 10 else if p = [nm ("a")] then some 5 else none

/-- Artifact newer than every object: the link step is skipped. -/
def mtLinkFresh : Path → Option Nat :=
  fun p => if p = oAC then some 3 else if p = [nm ("a")] then some 5 else none

def subTree : List Entry :=
  [Entry.file (("a.c").data), Entry.dir (("sub").data) [Entry.file (("b.c").data)]]

def dtD : Path → Option (List Entry) :=
  fun p => if p = pSrcDir then some subTree else none

def dtNone : Path → Option (List Entry) := fun _ => none

def gD : Graph :=
  ⟨ToolChain.Gcc, OptimizationLevel.Debug, BinaryType.Executable,
    [pSrcDir, pVend], [nm ("a")], pSrcDir, [], [], [], flags0, some [pVend], false⟩

/-- A process oracle that fails exactly the compile command of `src/a.c`
(as built for the full-rebuild graph `gGccFull`) and succeeds elsewhere. -/
def runFailA : Cmd → ProcResult :=
  fun c =>
    if c = InputFile.compileCmd ⟨ToolChain.Gcc, flags0, [], pAC, gGccFull.objOutput pAC, true⟩
    then ProcResult.exit false else ProcResult.exit true

def completedB : List (Except BuildError OutputFile) :=
  gGccFull.compileResults dtNone mtNone runFailA

def completedOk : List (Except BuildError OutputFile) :=
  gGccFull.compileResults dtNone mtNone runOk

/-! Helper lemmas about the compile-step model. -/

theorem sr_full_rebuild (f : InputFile) (mt : Path → Option Nat)
    (h : f.full_rebuild = true) : f.should_recompile mt = .ok true := by
  simp [InputFile.should_recompile, h]

theorem sr_source_missing (f : InputFile) (mt : Path → Option Nat)
    (h : f.full_rebuild = false) (hm : mt f.path = none) :
    f.should_recompile mt = .error (.metadataErr f.path) := by
  simp [InputFile.should_recompile, h]
  rw [hm]

theorem sr_object_missing (f : InputFile) (mt : Path → Option Nat) (im : Nat)
    (h : f.full_rebuild = false) (him : mt f.path = some im)
    (hout : mt f.output_path = none) : f.should_recompile mt = .ok true := by
  simp [InputFile.should_recompile, h]
  rw [him, hout]

theorem sr_compare (f : InputFile) (mt : Path → Option Nat) (im om : Nat)
    (h : f.full_rebuild = false) (him : mt f.path = some im)
    (hom : mt f.output_path = some om) :
    f.should_recompile mt = .ok (decide (om < im)) := by
  simp [InputFile.should_recompile, h]
  rw [him, hom]

theorem compileRun_spawns (f : InputFile) (mt : Path → Option Nat)
    (run : Cmd → ProcResult) (h : f.should_recompile mt = .ok true) :
    (f.compileRun mt run).2 = [f.compileCmd] := by
  unfold InputFile.compileRun
  rw [h]
  cases run f.compileCmd with
  | spawnFail => rfl
  | exit b => cases b <;> rfl

theorem compileRun_skips (f : InputFile) (mt : Path → Option Nat)
    (run : Cmd → ProcResult) (h : f.should_recompile mt = .ok false) :
    f.compileRun mt run = (.ok ⟨f.output_path⟩, []) := by
  unfold InputFile.compileRun
  rw [h]

theorem compileRun_errs (f : InputFile) (mt : Path → Option Nat)
    (run : Cmd → ProcResult) (e : BuildError)
    (h : f.should_recompile mt = .error e) :
    f.compileRun mt run = (.error e, []) := by
  unfold InputFile.compileRun
  rw [h]

/-- C1: the per-file staleness decision of `InputFile::compile`.  With the
full-rebuild override the file is always compiled (the compiler command is
spawned); otherwise, when the source metadata is readable: a missing
object means compile, an existing object means compile exactly when the
source timestamp is strictly newer, and otherwise the file is skipped with
the existing object path returned and no process spawned. -/
theorem compile_staleness_decision (f : InputFile) (mt : Path → Option Nat)
    (run : Cmd → ProcResult) :
    (f.full_rebuild = true → (f.compileRun mt run).2 = [f.compileCmd]) ∧
    (f.full_rebuild = false → ∀ im, mt f.path = some im →
      ((mt f.output_path = none → (f.compileRun mt run).2 = [f.compileCmd]) ∧
       (∀ om, mt f.output_path = some om →
         ((om < im → (f.compileRun mt run).2 = [f.compileCmd]) ∧
          (¬ om < im →
            f.compileRun mt run = (.ok ⟨f.output_path⟩, [])))))) := by
  refine ⟨fun hf => compileRun_spawns f mt run (sr_full_rebuild f mt hf),
    fun hf im him => ⟨fun hout =>
      compileRun_spawns f mt run (sr_object_missing f mt im hf him hout),
      fun om hom => ⟨fun hlt => ?_, fun hge => ?_⟩⟩⟩
  · apply compileRun_spawns f mt run
    rw [sr_compare f mt im om hf him hom, decide_eq_true hlt]
  · apply compileRun_skips f mt run
    rw [sr_compare f mt im om hf him hom, decide_eq_false hge]

/-- Witness for C1 at concrete inputs: with a source newer than its
object the compiler command is spawned; with a stale source the file is
skipped, no process spawned, and the existing object path is returned. -/
theorem compile_staleness_decision_witness :
    (fA.compileRun mtFresh runOk).2 = [fA.compileCmd] ∧
    fA.compileRun mtStale runOk = (.ok ⟨fA.output_path⟩, []) :=
  ⟨(((compile_staleness_decision fA mtFresh runOk).2 rfl 10 rfl).2 5 rfl).1
      (by decide),
   (((compile_staleness_decision fA mtStale runOk).2 rfl 3 rfl).2 5 rfl).2
      (by decide)⟩

/-- C10: without the full-rebuild override an unreadable source metadata
(for example a missing source file) makes `compile` return the filesystem
error with no process spawned — never a skip; with the override set the
metadata oracle is never consulted, so the outcome is identical for every
metadata oracle. -/
theorem compile_missing_source (f : InputFile) (mt : Path → Option Nat)
    (run : Cmd → ProcResult) :
    (f.full_rebuild = false → mt f.path = none →
      f.compileRun mt run = (.error (.metadataErr f.path), [])) ∧
    (f.full_rebuild = true → ∀ mt' : Path → Option Nat,
      f.compileRun mt run = f.compileRun mt' run) := by
  constructor
  · intro hf hm
    exact compileRun_errs f mt run _ (sr_source_missing f mt hf hm)
  · intro hf mt'
    unfold InputFile.compileRun
    rw [sr_full_rebuild f mt hf, sr_full_rebuild f mt' hf]

/-- Witness for C10: a missing source aborts compilation with a metadata
error and an empty spawn trace, and under the override the result does not
depend on the metadata oracle. -/
theorem compile_missing_source_witness :
    fA.compileRun mtNone runOk = (.error (.metadataErr fA.path), []) ∧
    fAFull.compileRun mtNone runOk = fAFull.compileRun mtFresh runOk :=
  ⟨(compile_missing_source fA mtNone runOk).1 rfl rfl,
   (compile_missing_source fAFull mtNone runOk).2 rfl mtFresh⟩

/-! Helper lemmas about warning flags. -/

theorem to_string_msvc (w : WarningFlag) :
    w.to_string ToolChain.Msvc = [] := by cases w <;> rfl

theorem warning_flag_msvc_empty :
    ToolChain.Msvc.compiler_warning_flag = [] ∧
    ToolChain.Msvc.compiler_no_warning_flag = [] := ⟨rfl, rfl⟩

/-- C5 counterexample: under MSVC a declared warning still contributes an
argument to the command line — the empty string — so the argument vector
with one warning differs from the argument vector with none (the claim
said no warning-related argument is added at all). -/
theorem msvc_warning_empty_arg_cex :
    msvcW.appendArgs = [("/nologo").data, []] ∧
    msvcW.appendArgs ≠ msvcN.appendArgs := by decide

/-- C5 (amended): every warning and suppressed warning maps to the empty
string under MSVC, so each contributes one empty argument (prefix and
suffix both empty) — not the absence of an argument; under every other
toolchain each contributes one argument made of the warning-flag prefix
followed by the warning's suffix. -/
theorem warning_flag_arguments (f : InputFile) :
    (f.tool_chain = ToolChain.Msvc →
      f.appendArgs = ("/nologo").data ::
        (f.args.warnings.map (fun _ => ([] : Str)) ++
         f.args.no_warnings.map (fun _ => ([] : Str)) ++
         f.args.custom)) ∧
    (f.tool_chain ≠ ToolChain.Msvc →
      f.appendArgs =
        f.args.warnings.map
          (fun w => f.tool_chain.compiler_warning_flag ++
            w.to_string f.tool_chain) ++
        f.args.no_warnings.map
          (fun w => f.tool_chain.compiler_no_warning_flag ++
            w.to_string f.tool_chain) ++
        f.args.custom) := by
  constructor
  · intro h
    simp [InputFile.appendArgs, h, to_string_msvc,
      ToolChain.compiler_warning_flag, ToolChain.compiler_no_warning_flag]
  · intro h
    simp [InputFile.appendArgs, h]

/-- Witness for C5 (amended): the MSVC shape at a file with one declared
warning, and the GCC shape at a file with a warning and a suppressed
warning. -/
theorem warning_flag_arguments_witness :
    msvcW.appendArgs = [("/nologo").data, []] ∧
    gccW.appendArgs = [("-Wall").data, ("-Wno-error").data] :=
  ⟨by rw [(warning_flag_arguments msvcW).1 rfl]; decide,
   by rw [(warning_flag_arguments gccW).2 (by decide)]; decide⟩

theorem compiler_output_flag_of_ne (tc : ToolChain)
    (h : tc ≠ ToolChain.Msvc) : tc.compiler_output_flag = ("-o").data := by
  cases tc <;> first | rfl | exact absurd rfl h

theorem linker_output_flag_of_ne (tc : ToolChain)
    (h : tc ≠ ToolChain.Msvc) : tc.linker_output_flag = ("-o").data := by
  cases tc <;> first | rfl | exact absurd rfl h

/-- C7: output-argument shape per toolchain family.  MSVC compile commands
receive the single concatenated token `/Fo<path>` and MSVC link commands
the single token `/OUT:<path>`; every other toolchain passes two separate
tokens, `-o` then the path, both when compiling and when linking. -/
theorem output_flag_shape (f : InputFile) (g : Graph) (host : Os) :
    (f.tool_chain = ToolChain.Msvc →
      f.appendOutputFile = [("/Fo").data ++ f.output_path.render]) ∧
    (f.tool_chain ≠ ToolChain.Msvc →
      f.appendOutputFile = [("-o").data, f.output_path.render]) ∧
    (g.tool_chain = ToolChain.Msvc →
      g.appendOut host = [("/OUT:").data ++ (g.outputPath host).render]) ∧
    (g.tool_chain ≠ ToolChain.Msvc →
      g.appendOut host = [("-o").data, (g.outputPath host).render]) := by
  refine ⟨fun h => ?_, fun h => ?_, fun h => ?_, fun h => ?_⟩
  · simp [InputFile.appendOutputFile, h]
  · simp [InputFile.appendOutputFile, h, compiler_output_flag_of_ne f.tool_chain h]
  · simp [Graph.appendOut, h]
  · simp [Graph.appendOut, h, linker_output_flag_of_ne g.tool_chain h]

/-- Witness for C7: the MSVC compile/link output tokens and the GCC
compile/link output tokens at concrete configurations. -/
theorem output_flag_shape_witness :
    msvcW.appendOutputFile = [("/Fo").data ++ msvcW.output_path.render] ∧
    fA.appendOutputFile = [("-o").data, fA.output_path.render] ∧
    gMsvc.appendOut Os.Window =
      [("/OUT:").data ++ (gMsvc.outputPath Os.Window).render] ∧
    gGcc.appendOut Os.Linux = [("-o").data, (gGcc.outputPath Os.Linux).render] :=
  ⟨(output_flag_shape msvcW gMsvc Os.Window).1 rfl,
   (output_flag_shape fA gMsvc Os.Window).2.1 (by decide),
   (output_flag_shape msvcW gMsvc Os.Window).2.2.1 rfl,
   (output_flag_shape fA gGcc Os.Linux).2.2.2 (by decide)⟩

/-- C8: linker-binary resolution.  MSVC with a static library resolves to
the librarian `lib.exe`, MSVC with an executable to `link.exe`; a custom
toolchain resolves to its configured linker for every binary type; every
other combination hits the `unimplemented!` panic arm (modelled `none`):
a fatal configuration error, not a recoverable `Err`. -/
theorem linker_resolution :
    ToolChain.Msvc.linker BinaryType.StaticLib = some (("lib.exe").data) ∧
    ToolChain.Msvc.linker BinaryType.Executable = some (("link.exe").data) ∧
    (∀ c l : Str, ∀ bt : BinaryType,
      (ToolChain.Custom c l).linker bt = some l) ∧
    (∀ bt : BinaryType,
      (ToolChain.Msvc.linker bt = none ↔ bt = BinaryType.DynLib) ∧
      (ToolChain.Gcc.linker bt = none ↔ bt ≠ BinaryType.Executable) ∧
      (ToolChain.Clang.linker bt = none ↔ bt ≠ BinaryType.Executable) ∧
      (ToolChain.Zig.linker bt = none ↔ bt ≠ BinaryType.Executable)) := by
  refine ⟨rfl, rfl, fun c l bt => ?_, fun bt => ?_⟩
  · cases bt <;> rfl
  · cases bt <;> refine ⟨?_, ?_, ?_, ?_⟩ <;> simp [ToolChain.linker]

/-! Helper lemmas about the link staleness decision. -/

theorem gsr_full_rebuild (g : Graph) (mt : Path → Option Nat) (host : Os)
    (files : List OutputFile) (h : g.full_rebuild = true) :
    g.should_recompile mt host files = .ok true := by
  simp [Graph.should_recompile, h]

theorem gsr_artifact_missing (g : Graph) (mt : Path → Option Nat) (host : Os)
    (files : List OutputFile) (h : g.full_rebuild = false)
    (hm : mt (g.outputPath host) = none) :
    g.should_recompile mt host files = .ok true := by
  simp [Graph.should_recompile, h]
  rw [hm]

theorem gsr_compare (g : Graph) (mt : Path → Option Nat) (host : Os)
    (files : List OutputFile) (om : Nat) (h : g.full_rebuild = false)
    (hm : mt (g.outputPath host) = some om) :
    g.should_recompile mt host files = anyNewer mt om files := by
  simp [Graph.should_recompile, h]
  rw [hm]

theorem anyNewer_readable (mt : Path → Option Nat) (om : Nat)
    (files : List OutputFile) (h : ∀ f ∈ files, ∃ m, mt f.path = some m) :
    (anyNewer mt om files = .ok true ∨ anyNewer mt om files = .ok false) ∧
    (anyNewer mt om files = .ok true ↔
      ∃ f ∈ files, ∃ m, mt f.path = some m ∧ om < m) := by
  induction files with
  | nil =>
    refine ⟨Or.inr rfl, ?_⟩
    simp [anyNewer]
  | cons f rest ih =>
    obtain ⟨m, hm⟩ := h f (List.mem_cons_self f rest)
    obtain ⟨ih1, ih2⟩ := ih (fun x hx => h x (List.mem_cons_of_mem f hx))
    simp only [anyNewer, hm]
    by_cases hlt : om < m
    · rw [if_pos hlt]
      refine ⟨Or.inl rfl, ?_⟩
      constructor
      · intro _
        exact ⟨f, List.mem_cons_self f rest, m, hm, hlt⟩
      · intro _
        rfl
    · rw [if_neg hlt]
      refine ⟨ih1, ?_⟩
      rw [ih2]
      constructor
      · rintro ⟨x, hx, mx, hmx, hox⟩
        exact ⟨x, List.mem_cons_of_mem f hx, mx, hmx, hox⟩
      · rintro ⟨x, hx, mx, hmx, hox⟩
        rcases List.mem_cons.mp hx with rfl | hx'
        · rw [hm] at hmx
          injection hmx with hmx
          exact absurd (hmx ▸ hox) hlt
        · exact ⟨x, hx', mx, hmx, hox⟩

theorem linkRun_spawns (g : Graph) (mt : Path → Option Nat)
    (run : Cmd → ProcResult) (host : Os) (files : List OutputFile) (cmd : Cmd)
    (hsr : g.should_recompile mt host files = .ok true)
    (hcmd : g.linkCmd host files = some cmd) :
    ∃ r, g.linkRun mt run host files = some (r, [cmd]) := by
  have hred : g.linkRun mt run host files =
      (match run cmd with
       | ProcResult.spawnFail => some (.error .linkSpawnErr, [cmd])
       | ProcResult.exit false => some (.error (.linkFailed g.output), [cmd])
       | ProcResult.exit true => some (.ok (g.outputPath host), [cmd])) := by
    unfold Graph.linkRun
    rw [hsr, hcmd]
  rw [hred]
  cases run cmd with
  | spawnFail => exact ⟨_, rfl⟩
  | exit b => cases b <;> exact ⟨_, rfl⟩

theorem linkRun_skips (g : Graph) (mt : Path → Option Nat)
    (run : Cmd → ProcResult) (host : Os) (files : List OutputFile)
    (hsr : g.should_recompile mt host files = .ok false) :
    g.linkRun mt run host files = some (.ok (g.outputPath host), []) := by
  unfold Graph.linkRun
  rw [hsr]

/-- C2: the link staleness decision of `Graph::link` (for a configuration
whose link command is constructible).  With the full-rebuild override the
linker is always spawned; with a missing artifact it is spawned; with an
existing artifact whose metadata and every object's metadata are readable,
it is spawned exactly when some object is strictly newer than the
artifact, and otherwise the link is skipped: the artifact path is returned
and no linker process is spawned. -/
theorem link_staleness_decision (g : Graph) (mt : Path → Option Nat)
    (run : Cmd → ProcResult) (host : Os) (files : List OutputFile) (cmd : Cmd)
    (hcmd : g.linkCmd host files = some cmd) :
    (g.full_rebuild = true →
      ∃ r, g.linkRun mt run host files = some (r, [cmd])) ∧
    (g.full_rebuild = false → mt (g.outputPath host) = none →
      ∃ r, g.linkRun mt run host files = some (r, [cmd])) ∧
    (g.full_rebuild = false → ∀ om, mt (g.outputPath host) = some om →
      (∀ f ∈ files, ∃ m, mt f.path = some m) →
      (((∃ f ∈ files, ∃ m, mt f.path = some m ∧ om < m) →
          ∃ r, g.linkRun mt run host files = some (r, [cmd])) ∧
       (¬ (∃ f ∈ files, ∃ m, mt f.path = some m ∧ om < m) →
          g.linkRun mt run host files =
            some (.ok (g.outputPath host), [])))) := by
  refine ⟨fun hf =>
      linkRun_spawns g mt run host files cmd
        (gsr_full_rebuild g mt host files hf) hcmd,
    fun hf hm =>
      linkRun_spawns g mt run host files cmd
        (gsr_artifact_missing g mt host files hf hm) hcmd,
    fun hf om hom hread => ?_⟩
  obtain ⟨hdic, hiff⟩ := anyNewer_readable mt om files hread
  constructor
  · intro hnew
    apply linkRun_spawns g mt run host files cmd ?_ hcmd
    rw [gsr_compare g mt host files om hf hom]
    exact hiff.mpr hnew
  · intro hnot
    apply linkRun_skips g mt run host files
    rw [gsr_compare g mt host files om hf hom]
    rcases hdic with htrue | hfalse
    · exact absurd (hiff.mp htrue) hnot
    · exact hfalse

/-- Witness for C2: with the object newer than the artifact the linker is
spawned once; with the artifact newer than every object the link is
skipped, the artifact path returned, and no linker spawned. -/
theorem link_staleness_decision_witness :
    (∃ r, gGcc.linkRun mtLinkStale runOk Os.Linux filesB =
        some (r, [cmdLinkB])) ∧
    gGcc.linkRun mtLinkFresh runOk Os.Linux filesB =
      some (.ok (gGcc.outputPath Os.Linux), []) :=
  ⟨((link_staleness_decision gGcc mtLinkStale runOk Os.Linux filesB cmdLinkB
        (by decide)).2.2 rfl 5 (by decide)
      (fun f hf => ⟨10, by rw [List.mem_singleton.mp hf]; decide⟩)).1
    ⟨⟨oAC⟩, List.mem_cons_self _ _, 10, by decide, by decide⟩,
   ((link_staleness_decision gGcc mtLinkFresh runOk Os.Linux filesB cmdLinkB
        (by decide)).2.2 rfl 5 (by decide)
      (fun f hf => ⟨3, by rw [List.mem_singleton.mp hf]; decide⟩)).2
    (by
      rintro ⟨f, hf, m, hm, hlt⟩
      rw [List.mem_singleton.mp hf] at hm
      have : m = 3 := by
        have h3 : mtLinkFresh oAC = some 3 := by decide
        rw [h3] at hm
        injection hm with hm
        exact hm.symm
      omega)⟩

/-! Helper lemmas about object-path derivation. -/

theorem append_singleton_inj {α : Type} (A B : List α) (x y : α) :
    A ++ [x] = B ++ [y] ↔ A = B ∧ x = y := by
  constructor
  · intro h
    obtain ⟨h1, h2⟩ := List.append_inj' h rfl
    refine ⟨h1, ?_⟩
    injection h2
  · rintro ⟨rfl, rfl⟩
    rfl

theorem withExtension_concat (l : Path) (n : Str) (e : Str) :
    Path.withExtension (l ++ [Comp.name n]) e =
      l ++ [Comp.name (withExtName n e)] := by
  simp [Path.withExtension, List.getLast?_concat, List.dropLast_concat]

theorem obj_ext_ne_nil (tc : ToolChain) : tc.obj_file_ext ≠ [] := by
  cases tc <;> simp [ToolChain.obj_file_ext]

theorem withExtName_eq_iff (n1 n2 e : Str) (he : e ≠ []) :
    withExtName n1 e = withExtName n2 e ↔ fileStem n1 = fileStem n2 := by
  unfold withExtName
  rw [if_neg he, if_neg he]
  constructor
  · intro h
    exact List.append_cancel_right h
  · intro h
    rw [h]

theorem objOutput_stripped (g : Graph) (p p' : Path)
    (hp : stripPre p g.src_dir = some p')
    (hrel : Path.isAbsolute p' = false) :
    g.objOutput p =
      Path.withExtension (Path.join CACHE_DIR OBJ_DIR ++ p')
        g.tool_chain.obj_file_ext := by
  unfold Graph.objOutput
  rw [hp]
  congr 1
  simp [Path.join, hrel]

/-- C3 counterexample: object-path derivation is not injective.  The two
distinct sources `src/a.c` and `src/a.cpp`, both under the source root,
map to the same object path `.cargoc/obj/a.o`, because `with_extension`
erases the differing extension. -/
theorem obj_path_injectivity_cex :
    pAC ≠ pACpp ∧
    stripPre pAC gGcc.src_dir = some [nm ("a.c")] ∧
    stripPre pACpp gGcc.src_dir = some [nm ("a.cpp")] ∧
    gGcc.objOutput pAC = gGcc.objOutput pACpp := by decide

/-- C3 (amended): derivation is deterministic (a pure function of the
configuration and the source path), and two sources under the same source
root collide exactly when their stripped paths have the same directory
part and the same file stem — that is, when they differ at most in their
extension; any other pair of distinct sources gets distinct object
paths. -/
theorem obj_path_collision_characterization (g : Graph) (p q dp dq : Path)
    (np nq : Str)
    (hp : stripPre p g.src_dir = some (dp ++ [Comp.name np]))
    (hq : stripPre q g.src_dir = some (dq ++ [Comp.name nq]))
    (hpa : Path.isAbsolute (dp ++ [Comp.name np]) = false)
    (hqa : Path.isAbsolute (dq ++ [Comp.name nq]) = false) :
    g.objOutput p = g.objOutput q ↔
      (dp = dq ∧ fileStem np = fileStem nq) := by
  rw [objOutput_stripped g p _ hp hpa, objOutput_stripped g q _ hq hqa]
  rw [← List.append_assoc, ← List.append_assoc]
  rw [withExtension_concat, withExtension_concat]
  rw [append_singleton_inj]
  constructor
  · rintro ⟨h1, h2⟩
    refine ⟨List.append_cancel_left h1, ?_⟩
    injection h2 with h2
    exact (withExtName_eq_iff np nq _ (obj_ext_ne_nil g.tool_chain)).1 h2
  · rintro ⟨rfl, hs⟩
    refine ⟨rfl, ?_⟩
    congr 1
    exact (withExtName_eq_iff np nq _ (obj_ext_ne_nil g.tool_chain)).2 hs

/-- Witness for C3 (amended): `src/a.c` and `src/a.cpp` collide (equal
stems), while `src/a.c` and `src/b.c` do not (different stems). -/
theorem obj_path_collision_witness :
    gGcc.objOutput pAC = gGcc.objOutput pACpp ∧
    gGcc.objOutput pAC ≠ gGcc.objOutput pBC := by
  constructor
  · exact (obj_path_collision_characterization gGcc pAC pACpp [] []
      (("a.c").data) (("a.cpp").data) (by decide) (by decide) (by decide)
      (by decide)).2 ⟨rfl, by decide⟩
  · intro h
    have hc := (obj_path_collision_characterization gGcc pAC pBC [] []
      (("a.c").data) (("b.c").data) (by decide) (by decide) (by decide)
      (by decide)).1 h
    exact absurd hc.2 (by decide)

/-- C9 counterexample: for an absolute discovered source path that is not
under the source root, the object path is not re-rooted under the cache
object directory at all — `PathBuf::join` with an absolute argument
replaces the base — so `/x.c` gets object path `/x.o`, next to the
source. -/
theorem objOutput_absolute_cex :
    stripPre pAbs gGcc.src_dir = none ∧
    gGcc.objOutput pAbs = [Comp.root, nm ("x.o")] ∧
    gGcc.objOutput pAbs ≠
      Path.withExtension (Path.join CACHE_DIR OBJ_DIR ++ pAbs)
        gGcc.tool_chain.obj_file_ext := by decide

/-- C9 (amended): when the source path does not lie under the source root,
stripping fails silently (`unwrap_or` keeps the whole path) and the object
path is derived totally — discovery never fails for such a path.  A
relative source path is re-rooted whole under the cache object directory
with its extension replaced; an absolute source path, however, replaces
the cache prefix entirely, so only its extension is rewritten. -/
theorem objOutput_outside_root (g : Graph) (f : Path)
    (hs : stripPre f g.src_dir = none) :
    (Path.isAbsolute f = false →
      g.objOutput f =
        Path.withExtension (Path.join CACHE_DIR OBJ_DIR ++ f)
          g.tool_chain.obj_file_ext) ∧
    (Path.isAbsolute f = true →
      g.objOutput f = Path.withExtension f g.tool_chain.obj_file_ext) := by
  unfold Graph.objOutput
  rw [hs]
  constructor <;> intro h <;> congr 1 <;> simp [Path.join, h]

/-- Witness for C9 (amended): the relative out-of-root source
`vendor/x.c` is re-rooted whole under `.cargoc/obj`, while the absolute
source `/x.c` keeps its own location. -/
theorem objOutput_outside_root_witness :
    gGcc.objOutput pVend =
      Path.withExtension (Path.join CACHE_DIR OBJ_DIR ++ pVend)
        gGcc.tool_chain.obj_file_ext ∧
    gGcc.objOutput pAbs = Path.withExtension pAbs gGcc.tool_chain.obj_file_ext :=
  ⟨(objOutput_outside_root gGcc pVend (by decide)).1 (by decide),
   (objOutput_outside_root gGcc pAbs (by decide)).2 (by decide)⟩

/-! Helper lemmas about file discovery. -/

theorem contains_iff_mem (l : List Path) (a : Path) :
    l.contains a = true ↔ a ∈ l := by
  unfold List.contains
  exact List.elem_iff

mutual

theorem mem_entryPaths : ∀ (base : Path) (e : Entry) (p : Path),
    p ∈ entryPaths base e ↔ LeafIn base e p
| base, .file n, p => by
  simp only [entryPaths, List.mem_singleton]
  constructor
  · rintro rfl
    exact LeafIn.file base n
  · rintro h
    cases h
    rfl
| base, .dir n es, p => by
  rw [entryPaths]
  rw [mem_entryPathsList (base ++ [Comp.name n]) es p]
  constructor
  · rintro ⟨e, he, hl⟩
    exact LeafIn.dir base n es e p he hl
  · rintro h
    cases h with
    | dir _ _ _ e _ he hl => exact ⟨e, he, hl⟩

theorem mem_entryPathsList : ∀ (base : Path) (es : List Entry) (p : Path),
    p ∈ entryPathsList base es ↔ ∃ e ∈ es, LeafIn base e p
| base, [], p => by
  simp [entryPathsList]
| base, e :: es, p => by
  rw [entryPathsList]
  rw [List.mem_append]
  rw [mem_entryPaths base e p, mem_entryPathsList base es p]
  constructor
  · rintro (h | ⟨x, hx, hl⟩)
    · exact ⟨e, List.mem_cons_self e es, h⟩
    · exact ⟨x, List.mem_cons_of_mem e hx, hl⟩
  · rintro ⟨x, hx, hl⟩
    rcases List.mem_cons.mp hx with rfl | hx'
    · exact Or.inl hl
    · exact Or.inr ⟨x, hx', hl⟩

end

/-- C6: discovery filters the exclusion list only against the configured
top-level entries, by verbatim membership, before any expansion: a path
is discovered exactly when it comes from a configured entry that is not
verbatim in the exclusion list, where a non-directory entry contributes
itself and a directory entry contributes precisely its non-directory
descendants — with no exclusion condition on the discovered paths
themselves. -/
theorem discovery_exclusion_top_level (g : Graph)
    (dt : Path → Option (List Entry)) (ex : List Path) (p : Path)
    (hex : g.excludes = some ex) :
    p ∈ g.discover dt ↔
      ∃ f, f ∈ g.files ∧ f ∉ ex ∧
        ((dt f = none ∧ p = f) ∨
         (∃ es, dt f = some es ∧ ∃ e ∈ es, LeafIn f e p)) := by
  simp only [Graph.discover, hex, readDirAll, List.mem_flatMap,
    List.mem_filter]
  constructor
  · rintro ⟨f, ⟨hf, hnex⟩, hp⟩
    refine ⟨f, hf, ?_, ?_⟩
    · intro hmem
      rw [Bool.not_eq_true'] at hnex
      rw [(contains_iff_mem ex f).mpr hmem] at hnex
      cases hnex
    · rcases hdt : dt f with _ | es
      · rw [hdt] at hp
        simp only [List.mem_singleton] at hp
        exact Or.inl ⟨rfl, hp⟩
      · rw [hdt] at hp
        exact Or.inr ⟨es, rfl, (mem_entryPathsList f es p).1 hp⟩
  · rintro ⟨f, hf, hnex, hcase⟩
    refine ⟨f, ⟨hf, ?_⟩, ?_⟩
    · rw [Bool.not_eq_true']
      cases hc : ex.contains f with
      | false => rfl
      | true => exact absurd ((contains_iff_mem ex f).1 hc) hnex
    · rcases hcase with ⟨hdt, rfl⟩ | ⟨es, hdt, e, he, hl⟩
      · rw [hdt]
        exact List.mem_singleton.mpr rfl
      · rw [hdt]
        exact (mem_entryPathsList f es p).2 ⟨e, he, hl⟩

/-- Witness for C6: in a target whose files are `src` (a directory
containing `a.c` and `sub/b.c`) and `vendor/x.c`, with `vendor/x.c`
excluded verbatim, the nested file `src/sub/b.c` is discovered. -/
theorem discovery_exclusion_top_level_witness : pSubB ∈ gD.discover dtD :=
  (discovery_exclusion_top_level gD dtD [pVend] pSubB rfl).2
    ⟨pSrcDir, by decide, by decide,
     Or.inr ⟨subTree, rfl,
       Entry.dir (("sub").data) [Entry.file (("b.c").data)],
       List.mem_cons_of_mem _ (List.mem_cons_self _ _),
       LeafIn.dir pSrcDir (("sub").data) [Entry.file (("b.c").data)]
         (Entry.file (("b.c").data)) pSubB (List.mem_cons_self _ _)
         (LeafIn.file (pSrcDir ++ [Comp.name (("sub").data)]) (("b.c").data))⟩⟩

/-! Helper lemmas about result aggregation. -/

theorem collectResults_error_iff (l : List (Except BuildError OutputFile))
    (e : BuildError) :
    collectResults l = .error e ↔ firstError l = some e := by
  induction l with
  | nil => simp [collectResults, firstError]
  | cons r rest ih =>
    cases r with
    | error e' => simp [collectResults, firstError]
    | ok o =>
      simp only [collectResults, firstError]
      rw [← ih]
      cases collectResults rest <;> simp [Except.map]

theorem firstError_isSome_of_err (l : List (Except BuildError OutputFile))
    (r : Except BuildError OutputFile) (hr : r ∈ l) (he : isErr r = true) :
    ∃ e, firstError l = some e := by
  induction l with
  | nil => cases hr
  | cons a rest ih =>
    cases a with
    | error e' => exact ⟨e', rfl⟩
    | ok o =>
      rcases List.mem_cons.mp hr with rfl | hr'
      · simp [isErr] at he
      · simpa [firstError] using ih hr'

theorem collectResults_ok (l : List (Except BuildError OutputFile))
    (h : ∀ r ∈ l, isErr r = false) :
    collectResults l = .ok (l.filterMap okVal) := by
  induction l with
  | nil => rfl
  | cons r rest ih =>
    cases r with
    | error e =>
      have := h _ (List.mem_cons_self _ _)
      simp [isErr] at this
    | ok o =>
      simp only [collectResults, List.filterMap_cons]
      rw [ih (fun r hr => h r (List.mem_cons_of_mem _ hr))]
      simp [okVal, Except.map]

/-- C4: failure aggregation in `Graph::build`.  Every file's compile
commands are part of the build's spawn trace (all jobs are launched into
the join set before any result is awaited, so a failure cancels nothing);
if any file's compilation fails, the build returns the first compile
error encountered in completion order and the trace contains no link
command — the link step is never reached; if every compilation succeeds,
the aggregate is the full list of output files (a permutation of the
per-file outputs) and the build continues into the link step on exactly
that list. -/
theorem build_failure_aggregation (g : Graph) (dt : Path → Option (List Entry))
    (mt : Path → Option Nat) (run : Cmd → ProcResult) (host : Os)
    (completed : List (Except BuildError OutputFile))
    (hperm : completed.Perm (g.compileResults dt mt run)) :
    (∀ f ∈ g.inputFiles dt,
      ((f.compileRun mt run).2).Sublist (g.compileTrace dt mt run)) ∧
    ((∃ f ∈ g.inputFiles dt, isErr (f.compileRun mt run).1 = true) →
      ∃ e, firstError completed = some e ∧
        g.buildRun dt mt run host completed =
          some (.error e, g.compileTrace dt mt run)) ∧
    ((∀ f ∈ g.inputFiles dt, isErr (f.compileRun mt run).1 = false) →
      collectResults completed = .ok (completed.filterMap okVal) ∧
      (completed.filterMap okVal).Perm
        ((g.compileResults dt mt run).filterMap okVal) ∧
      g.buildRun dt mt run host completed =
        (match g.linkRun mt run host (completed.filterMap okVal) with
         | none => none
         | some rlt =>
           some (rlt.1, g.compileTrace dt mt run ++ rlt.2))) := by
  refine ⟨?_, ?_, ?_⟩
  · intro f hf
    exact List.sublist_flatten_of_mem
      (List.mem_map_of_mem (fun x => (x.compileRun mt run).2) hf)
  · rintro ⟨f, hf, herr⟩
    have hmem : (f.compileRun mt run).1 ∈ g.compileResults dt mt run :=
      List.mem_map_of_mem (fun x => (x.compileRun mt run).1) hf
    have hmem' : (f.compileRun mt run).1 ∈ completed := hperm.mem_iff.mpr hmem
    obtain ⟨e, he⟩ := firstError_isSome_of_err completed _ hmem' herr
    refine ⟨e, he, ?_⟩
    unfold Graph.buildRun
    rw [(collectResults_error_iff completed e).2 he]
  · intro h
    have hc : ∀ r ∈ completed, isErr r = false := by
      intro r hr
      have hr' : r ∈ g.compileResults dt mt run := hperm.mem_iff.mp hr
      obtain ⟨f, hf, rfl⟩ := List.mem_map.mp hr'
      exact h f hf
    have hok := collectResults_ok completed hc
    refine ⟨hok, hperm.filterMap okVal, ?_⟩
    unfold Graph.buildRun
    rw [hok]
    show (match g.linkRun mt run host (List.filterMap okVal completed) with
          | none => none
          | some (r, lt) => some (r, g.compileTrace dt mt run ++ lt)) =
        (match g.linkRun mt run host (List.filterMap okVal completed) with
         | none => none
         | some rlt => some (rlt.1, g.compileTrace dt mt run ++ rlt.2))
    rcases g.linkRun mt run host (List.filterMap okVal completed) with _ | ⟨r, lt⟩
    · rfl
    · rfl

/-- Witness for C4: with two files under a full-rebuild graph and a
process oracle that fails exactly the compile of `src/a.c`, the build
returns that first error with the link step never invoked; with an
all-success oracle the aggregate is the full output list. -/
theorem build_failure_aggregation_witness :
    (∃ e, firstError completedB = some e ∧
      gGccFull.buildRun dtNone mtNone runFailA Os.Linux completedB =
        some (.error e, gGccFull.compileTrace dtNone mtNone runFailA)) ∧
    collectResults completedOk = .ok (completedOk.filterMap okVal) :=
  ⟨(build_failure_aggregation gGccFull dtNone mtNone runFailA Os.Linux
      completedB (List.Perm.refl _)).2.1
    ⟨⟨ToolChain.Gcc, flags0, [], pAC, gGccFull.objOutput pAC, true⟩,
      by decide, by decide⟩,
   ((build_failure_aggregation gGccFull dtNone mtNone runOk Os.Linux
      completedOk (List.Perm.refl _)).2.2 (by decide)).1⟩

end Cbuild
